import Mathlib

/-!
Shallow embedding of the go-idforge ID generation library
(`pkg/idforge/extended_generator.go` and `pkg/idforge/validator.go`).

Modelling conventions:
* Go strings are modelled as `List Char` (the alphabets and IDs in play are
  ASCII, so Go's byte indexing agrees with character indexing and
  `[]byte(s)` agrees with `s.map Char.toNat`).
* Go `int` is modelled as `ℤ`; Go `float64` arithmetic in
  `calculateMaxAttempts` is modelled exactly over `ℚ` (with `int(x)`
  conversion as truncation toward zero), and the `float64` arithmetic of
  `GetUniquenessProbability` over `ℝ`.
* `crypto/rand.Int(rand.Reader, n)`, which returns a uniform random integer
  in `[0, n)`, is modelled by an oracle `draws : ℕ → ℕ → ℕ` giving the value
  drawn at (attempt, position); its contract is the hypothesis
  `draws a i < alphabet length`.
* A `context.Context` is modelled by the observations of its `Done` channel:
  `ctxDone : ℕ → Bool` gives the result of the t-th `select` check executed
  during the call (checks are numbered: one per entropy provider, then one
  per executed `attempt % 10 == 0` check of the retry loop).  The
  `context.WithTimeout` wrapper only changes which `ctxDone` function
  reality supplies; wall-clock time itself is not modelled.
* An entropy provider is modelled by the outcome of its `Provide` call:
  `Except ε (List Char)`, where `ε` is an abstract type of provider errors.
* The `map[string]bool` set `generated` is modelled as a `List (List Char)`
  with membership via `List.contains`; insertion (which in the code only
  happens for a key that is absent) is `List.cons`.
-/

/-- Error universe of the Go package: the three sentinel errors declared in
`extended_generator.go` plus arbitrary entropy-provider errors (`ε`),
which `Generate` propagates verbatim. -/
inductive GoError (ε : Type) where
  | invalidAlphabet
  | invalidSize
  | generationTimeout
  | providerErr (e : ε)
deriving DecidableEq

deriving instance DecidableEq for Except

/-- `GeneratorConfig` of `extended_generator.go`.  `MaxGenerationTime` (a
wall-clock duration) is kept for completeness; its effect is subsumed by the
`ctxDone` observation function. -/
structure GeneratorConfig (ε : Type) where
  Alphabet : List Char
  Size : ℤ
  Entropy : List (Except ε (List Char))
  MaxGenerationTime : ℕ
  UniquenessPressure : ℚ
  MaxUniqueIDs : ℤ
deriving DecidableEq

/-- `ExtendedGenerator`: configuration plus the mutable issued-ID state
(`generated` set and `idCounter`).  The mutex only serializes calls and has
no pure-state content. -/
structure ExtendedGenerator (ε : Type) where
  config : GeneratorConfig ε
  generated : List (List Char)
  idCounter : ℤ
deriving DecidableEq

/-- Go's `[]byte(s)` for the ASCII strings in play. -/
def strBytes (s : List Char) : List ℕ :=
  s.map Char.toNat

/-- Go's `int(x)` conversion on a `float64`: truncation toward zero. -/
def goTrunc (q : ℚ) : ℤ :=
  if 0 ≤ q then ⌊q⌋ else ⌈q⌉

/-- `calculateMaxAttempts` of `extended_generator.go`:
`int(math.Min(math.Pow(alphabetLen, size) * uniquenessPressure, 1000))`. -/
def calculateMaxAttempts (alphabetLen : ℕ) (size : ℤ) (uniquenessPressure : ℚ) : ℤ :=
  goTrunc (min ((alphabetLen : ℚ) ^ size * uniquenessPressure) 1000)

/-- `generateCandidateID` of `extended_generator.go`: for each of the `size`
positions, draw `num` from the cryptographic source; when the seed is
nonempty add the seed byte at position `i % len(seedBytes)` and reduce
modulo the alphabet length; index the alphabet with the result. -/
def generateCandidateID (alphabet : List Char) (size : ℕ) (seedBytes : List ℕ)
    (draw : ℕ → ℕ) : List Char :=
  (List.range size).map fun i =>
    let num := draw i
    let num :=
      if 0 < seedBytes.length then
        (num + seedBytes.getD (i % seedBytes.length) 0) % alphabet.length
      else num
    alphabet.getD num ' '

/-- `collectEntropy` of `extended_generator.go`: walk the providers in
order; before each provider, observe the context's `Done` channel (check
number `t`) and abort with `ErrGenerationTimeout` if it is closed; a
provider error aborts the whole collection with that error propagated
verbatim. -/
def collectEntropy {ε : Type} (ctxDone : ℕ → Bool) (t : ℕ) :
    List (Except ε (List Char)) → Except (GoError ε) (List (List Char))
  | [] => .ok []
  | p :: ps =>
    if ctxDone t then .error .generationTimeout
    else
      match p with
      | .error e => .error (.providerErr e)
      | .ok s =>
        match collectEntropy ctxDone (t + 1) ps with
        | .error err => .error err
        | .ok rest => .ok (s :: rest)

/-- The retry loop of `Generate` (`for attempt := 0; attempt < maxAttempts`):
every 10th attempt observes the context (check number `t0 + attempt / 10`);
each attempt builds a candidate from the one fixed `seedBytes` and the
draws of that attempt, and returns it (inserting it into the set and
bumping the counter) exactly when it is not already in the set.
`fuel` is the number of remaining attempts, `maxAttempts - attempt`. -/
def generateLoop {ε : Type} (alphabet : List Char) (size : ℕ) (seedBytes : List ℕ)
    (draws : ℕ → ℕ → ℕ) (ctxDone : ℕ → Bool) (t0 : ℕ) :
    ℕ → ℕ → List (List Char) → ℤ →
      Except (GoError ε) (List Char) × List (List Char) × ℤ
  | 0, _, generated, idCounter => (.error .generationTimeout, generated, idCounter)
  | fuel + 1, attempt, generated, idCounter =>
    if attempt % 10 = 0 && ctxDone (t0 + attempt / 10) then
      (.error .generationTimeout, generated, idCounter)
    else
      let candidateID := generateCandidateID alphabet size seedBytes (draws attempt)
      if generated.contains candidateID then
        generateLoop alphabet size seedBytes draws ctxDone t0 fuel (attempt + 1)
          generated idCounter
      else
        (.ok candidateID, candidateID :: generated, idCounter + 1)

/-- The issued-ID housekeeping step of `Generate`: when the counter has
reached `MaxUniqueIDs`, clear the set and zero the counter.  Performed once
per call, before the retry loop. -/
def applyReset {ε : Type} (g : ExtendedGenerator ε) : ExtendedGenerator ε :=
  if g.config.MaxUniqueIDs ≤ g.idCounter then
    { g with generated := [], idCounter := 0 }
  else g

/-- `Generate` of `extended_generator.go`.  Returns the Go function's
`(string, error)` result together with the post-call generator state. -/
def Generate {ε : Type} (g : ExtendedGenerator ε) (ctxDone : ℕ → Bool)
    (draws : ℕ → ℕ → ℕ) : Except (GoError ε) (List Char) × ExtendedGenerator ε :=
  if g.config.Alphabet.length < 2 then (.error .invalidAlphabet, g)
  else if g.config.Size ≤ 0 then (.error .invalidSize, g)
  else
    match collectEntropy ctxDone 0 g.config.Entropy with
    | .error err => (.error err, g)
    | .ok entropyParts =>
      let maxAttempts :=
        calculateMaxAttempts g.config.Alphabet.length g.config.Size
          g.config.UniquenessPressure
      let seedBytes := strBytes entropyParts.flatten
      let g1 := applyReset g
      let r := generateLoop g.config.Alphabet g.config.Size.toNat seedBytes draws ctxDone
        g.config.Entropy.length maxAttempts.toNat 0 g1.generated g1.idCounter
      (r.1, { g1 with generated := r.2.1, idCounter := r.2.2 })

/-! ### Helper lemmas -/

theorem list_getD_eq_getD {α : Type} {l : List α} {n : ℕ} (h : n < l.length) (d d' : α) :
    l.getD n d = l.getD n d' := by
  simp [List.getD_eq_getElem?_getD, List.getElem?_eq_getElem h]

theorem list_getD_mem {α : Type} {l : List α} {n : ℕ} (h : n < l.length) (d : α) :
    l.getD n d ∈ l := by
  rw [List.getD_eq_getElem?_getD, List.getElem?_eq_getElem h]
  exact List.getElem_mem h

theorem generateCandidateID_length (A : List Char) (size : ℕ) (seed : List ℕ)
    (draw : ℕ → ℕ) : (generateCandidateID A size seed draw).length = size := by
  simp [generateCandidateID]

theorem generateCandidateID_getD (A : List Char) (size : ℕ) (seed : List ℕ)
    (draw : ℕ → ℕ) {i : ℕ} (hi : i < size) (hA : 0 < A.length)
    (hdraw : draw i < A.length) (d : Char) :
    (generateCandidateID A size seed draw).getD i d =
      if 0 < seed.length then
        A.getD ((draw i + seed.getD (i % seed.length) 0) % A.length) d
      else A.getD (draw i) d := by
  unfold generateCandidateID
  rw [List.getD_eq_getElem?_getD, List.getElem?_map, List.getElem?_range hi]
  simp only [Option.map_some', Option.getD_some]
  split
  · exact list_getD_eq_getD (Nat.mod_lt _ hA) _ _
  · exact list_getD_eq_getD hdraw _ _

theorem generateCandidateID_mem (A : List Char) (size : ℕ) (seed : List ℕ)
    (draw : ℕ → ℕ) (hA : 0 < A.length) (hdraw : ∀ i, draw i < A.length) :
    ∀ c ∈ generateCandidateID A size seed draw, c ∈ A := by
  intro c hc
  simp only [generateCandidateID, List.mem_map, List.mem_range] at hc
  obtain ⟨i, -, rfl⟩ := hc
  split
  · exact list_getD_mem (Nat.mod_lt _ hA) _
  · exact list_getD_mem (hdraw i) _

theorem generateLoop_ok {ε : Type} (A : List Char) (size : ℕ) (seed : List ℕ)
    (draws : ℕ → ℕ → ℕ) (c : ℕ → Bool) (t0 : ℕ) :
    ∀ (fuel attempt : ℕ) (gen gen' : List (List Char)) (ctr ctr' : ℤ) (id : List Char),
    generateLoop (ε := ε) A size seed draws c t0 fuel attempt gen ctr =
        (.ok id, gen', ctr') →
    (∃ a, attempt ≤ a ∧ a < attempt + fuel ∧
        id = generateCandidateID A size seed (draws a)) ∧
      gen.contains id = false ∧ gen' = id :: gen ∧ ctr' = ctr + 1 := by
  intro fuel
  induction fuel with
  | zero =>
    intro attempt gen gen' ctr ctr' id h
    simp [generateLoop] at h
  | succ n ih =>
    intro attempt gen gen' ctr ctr' id h
    rw [generateLoop] at h
    split at h
    · simp at h
    · by_cases hdup : gen.contains (generateCandidateID A size seed (draws attempt)) = true
      · rw [if_pos hdup] at h
        obtain ⟨⟨a, ha1, ha2, rfl⟩, hmem, hgen, hctr⟩ := ih _ _ _ _ _ _ h
        exact ⟨⟨a, by omega, by omega, rfl⟩, hmem, hgen, hctr⟩
      · rw [if_neg hdup] at h
        simp only [Prod.mk.injEq, Except.ok.injEq] at h
        obtain ⟨rfl, rfl, rfl⟩ := h
        exact ⟨⟨attempt, le_refl _, by omega, rfl⟩,
          Bool.not_eq_true _ ▸ hdup, rfl, rfl⟩

theorem generateLoop_exhaust {ε : Type} (A : List Char) (size : ℕ) (seed : List ℕ)
    (draws : ℕ → ℕ → ℕ) (c : ℕ → Bool) (t0 : ℕ) (gen : List (List Char))
    (hc : ∀ t, c t = false)
    (hdup : ∀ a, gen.contains (generateCandidateID A size seed (draws a)) = true) :
    ∀ (fuel attempt : ℕ) (ctr : ℤ),
    generateLoop (ε := ε) A size seed draws c t0 fuel attempt gen ctr =
      (.error .generationTimeout, gen, ctr) := by
  intro fuel
  induction fuel with
  | zero => intro attempt ctr; rw [generateLoop]
  | succ n ih =>
    intro attempt ctr
    rw [generateLoop, hc, Bool.and_false, if_neg Bool.false_ne_true,
      if_pos (hdup attempt)]
    exact ih (attempt + 1) ctr

theorem collectEntropy_providerErr {ε : Type} (c : ℕ → Bool) (e : ε)
    (post : List (Except ε (List Char))) :
    ∀ (pre : List (Except ε (List Char))) (t : ℕ),
    (∀ p ∈ pre, p.isOk = true) →
    (∀ u, u ≤ pre.length → c (t + u) = false) →
    collectEntropy c t (pre ++ .error e :: post) = .error (.providerErr e) := by
  intro pre
  induction pre with
  | nil =>
    intro t _ hc
    have h0 : c t = false := by simpa using hc 0 (Nat.zero_le _)
    rw [List.nil_append, collectEntropy, h0, if_neg Bool.false_ne_true]
  | cons p ps ih =>
    intro t hok hc
    have h0 : c t = false := by simpa using hc 0 (Nat.zero_le _)
    obtain ⟨s, rfl⟩ : ∃ s, p = .ok s := by
      cases p with
      | error e' => simpa [Except.isOk, Except.toBool] using hok _ (List.mem_cons_self _ _)
      | ok s => exact ⟨s, rfl⟩
    rw [List.cons_append, collectEntropy, h0, if_neg Bool.false_ne_true]
    rw [ih (t + 1) (fun q hq => hok q (List.mem_cons_of_mem _ hq))
      (fun u hu => by
        have := hc (u + 1) (by simpa using Nat.succ_le_succ hu)
        simpa [Nat.add_assoc, Nat.add_comm 1 u] using this)]

theorem applyReset_config {ε : Type} (g : ExtendedGenerator ε) :
    (applyReset g).config = g.config := by
  unfold applyReset; split <;> rfl

/-- Unfolding of `Generate` past the validation and entropy-collection stages:
once the entropy parts are collected, the call is the retry loop run with the
mixing seed `strBytes parts.flatten` (the byte sequence of the concatenation
of all entropy strings), computed once, on the once-reset state. -/
theorem Generate_after_entropy {ε : Type} (g : ExtendedGenerator ε) (c : ℕ → Bool)
    (draws : ℕ → ℕ → ℕ) (parts : List (List Char))
    (h2 : ¬ g.config.Alphabet.length < 2) (hs : ¬ g.config.Size ≤ 0)
    (hcol : collectEntropy c 0 g.config.Entropy = .ok parts) :
    Generate g c draws =
      ((generateLoop g.config.Alphabet g.config.Size.toNat (strBytes parts.flatten)
          draws c g.config.Entropy.length
          (calculateMaxAttempts g.config.Alphabet.length g.config.Size
            g.config.UniquenessPressure).toNat 0
          (applyReset g).generated (applyReset g).idCounter).1,
        { applyReset g with
          generated := (generateLoop (ε := ε) g.config.Alphabet g.config.Size.toNat
            (strBytes parts.flatten) draws c g.config.Entropy.length
            (calculateMaxAttempts g.config.Alphabet.length g.config.Size
              g.config.UniquenessPressure).toNat 0
            (applyReset g).generated (applyReset g).idCounter).2.1,
          idCounter := (generateLoop (ε := ε) g.config.Alphabet g.config.Size.toNat
            (strBytes parts.flatten) draws c g.config.Entropy.length
            (calculateMaxAttempts g.config.Alphabet.length g.config.Size
              g.config.UniquenessPressure).toNat 0
            (applyReset g).generated (applyReset g).idCounter).2.2 }) := by
  unfold Generate
  rw [if_neg h2, if_neg hs, hcol]

theorem Generate_ok_inv {ε : Type} (g : ExtendedGenerator ε) (c : ℕ → Bool)
    (draws : ℕ → ℕ → ℕ) (id : List Char) (g' : ExtendedGenerator ε)
    (h : Generate g c draws = (.ok id, g')) :
    2 ≤ g.config.Alphabet.length ∧ 0 < g.config.Size ∧ g'.config = g.config ∧
    ∃ parts, collectEntropy c 0 g.config.Entropy = .ok parts ∧
      generateLoop (ε := ε) g.config.Alphabet g.config.Size.toNat
        (strBytes parts.flatten) draws c g.config.Entropy.length
        (calculateMaxAttempts g.config.Alphabet.length g.config.Size
          g.config.UniquenessPressure).toNat 0
        (applyReset g).generated (applyReset g).idCounter =
        (.ok id, g'.generated, g'.idCounter) := by
  unfold Generate at h
  by_cases h2 : g.config.Alphabet.length < 2
  · rw [if_pos h2] at h; simp at h
  rw [if_neg h2] at h
  by_cases hs : g.config.Size ≤ 0
  · rw [if_pos hs] at h; simp at h
  rw [if_neg hs] at h
  cases hcol : collectEntropy c 0 g.config.Entropy with
  | error err => rw [hcol] at h; simp at h
  | ok parts =>
    rw [hcol] at h
    simp only [Prod.mk.injEq] at h
    obtain ⟨h1, hg'⟩ := h
    subst hg'
    exact ⟨by omega, by omega, applyReset_config g, parts, rfl, by rw [← h1]⟩

/-! ### Claim theorems -/

/-- C1: For every valid configuration (alphabet with at least 2 symbols,
positive size), every ID returned by a successful `Generate` call has exactly
the configured `Size` characters, and every symbol of the ID is a member of
the configured `Alphabet`.  `hdraws` is the contract of
`crypto/rand.Int(rand.Reader, alphabetLen)`: every draw lies below the
alphabet length.  (Validity of the configuration is forced by `Generate`'s
own guards whenever it succeeds.) -/
theorem C1_id_length_and_alphabet {ε : Type} (g : ExtendedGenerator ε)
    (c : ℕ → Bool) (draws : ℕ → ℕ → ℕ)
    (hdraws : ∀ a i, draws a i < g.config.Alphabet.length)
    (id : List Char) (g' : ExtendedGenerator ε)
    (h : Generate g c draws = (.ok id, g')) :
    (id.length : ℤ) = g.config.Size ∧ ∀ ch ∈ id, ch ∈ g.config.Alphabet := by
  obtain ⟨h2, hs, -, parts, -, hloop⟩ := Generate_ok_inv g c draws id g' h
  obtain ⟨⟨a, -, -, rfl⟩, -, -, -⟩ :=
    generateLoop_ok _ _ _ _ _ _ _ _ _ _ _ _ _ hloop
  constructor
  · rw [generateCandidateID_length]; omega
  · exact generateCandidateID_mem _ _ _ _ (by omega) (hdraws a)

/-- Example generator: alphabet `"ab"`, size 1, no entropy providers,
pressure 1, cap 10, fresh state. -/
def genAB : ExtendedGenerator ℕ :=
  { config := { Alphabet := ['a', 'b'], Size := 1, Entropy := [],
                MaxGenerationTime := 5000000000, UniquenessPressure := 1,
                MaxUniqueIDs := 10 },
    generated := [], idCounter := 0 }

unseal Rat.mul Rat.add Rat.inv Rat.sub in
theorem C1_id_length_and_alphabet_witness :
    ((['a'] : List Char).length : ℤ) = genAB.config.Size ∧
      ∀ ch ∈ (['a'] : List Char), ch ∈ genAB.config.Alphabet :=
  C1_id_length_and_alphabet genAB (fun _ => false) (fun _ _ => 0)
    (by intro a i; exact Nat.zero_lt_two) ['a']
    { config := genAB.config, generated := [['a']], idCounter := 1 }
    (by decide)

/-- C2: Within one `Generate` call the mixing seed is the byte sequence of
the concatenation of all collected entropy strings, computed once and reused
unchanged for every retry attempt, and each candidate is built position by
position: draw a uniform integer below the alphabet size, add the seed byte
at index `i % seed length`, reduce modulo the alphabet size, and map the
index to the alphabet symbol (the drawn integer is used directly when the
seed is empty).  Conjunct 1: the ID returned by a successful call is the
candidate built from seed `strBytes parts.flatten` at the successful
attempt.  Conjunct 2: the position-by-position formula.  Conjunct 3: a retry
step passes the very same seed to the next attempt. -/
theorem C2_seed_and_candidate {ε : Type} :
    (∀ (g : ExtendedGenerator ε) (c : ℕ → Bool) (draws : ℕ → ℕ → ℕ)
        (parts : List (List Char)) (id : List Char) (g' : ExtendedGenerator ε),
      collectEntropy c 0 g.config.Entropy = .ok parts →
      Generate g c draws = (.ok id, g') →
      ∃ a : ℕ, (a : ℤ) < calculateMaxAttempts g.config.Alphabet.length
          g.config.Size g.config.UniquenessPressure ∧
        id = generateCandidateID g.config.Alphabet g.config.Size.toNat
          (strBytes parts.flatten) (draws a)) ∧
    (∀ (A : List Char) (size : ℕ) (seed : List ℕ) (draw : ℕ → ℕ) (i : ℕ),
      i < size → 0 < A.length → draw i < A.length → ∀ d,
      (generateCandidateID A size seed draw).getD i d =
        if 0 < seed.length then
          A.getD ((draw i + seed.getD (i % seed.length) 0) % A.length) d
        else A.getD (draw i) d) ∧
    (∀ (A : List Char) (size : ℕ) (seed : List ℕ) (draws : ℕ → ℕ → ℕ)
        (c : ℕ → Bool) (t0 fuel attempt : ℕ) (gen : List (List Char)) (ctr : ℤ),
      (decide (attempt % 10 = 0) && c (t0 + attempt / 10)) = false →
      gen.contains (generateCandidateID A size seed (draws attempt)) = true →
      generateLoop (ε := ε) A size seed draws c t0 (fuel + 1) attempt gen ctr =
        generateLoop (ε := ε) A size seed draws c t0 fuel (attempt + 1) gen ctr) := by
  refine ⟨?_, ?_, ?_⟩
  · intro g c draws parts id g' hcol h
    obtain ⟨-, -, -, parts', hcol', hloop⟩ := Generate_ok_inv g c draws id g' h
    rw [hcol] at hcol'
    obtain rfl : parts = parts' := by
      simpa using hcol'
    obtain ⟨⟨a, -, ha, rfl⟩, -, -, -⟩ :=
      generateLoop_ok _ _ _ _ _ _ _ _ _ _ _ _ _ hloop
    exact ⟨a, by omega, rfl⟩
  · intro A size seed draw i hi hA hdraw d
    exact generateCandidateID_getD A size seed draw hi hA hdraw d
  · intro A size seed draws c t0 fuel attempt gen ctr hchk hdup
    rw [generateLoop, hchk, if_neg Bool.false_ne_true, if_pos hdup]

unseal Rat.mul Rat.add Rat.inv Rat.sub in
theorem C2_seed_and_candidate_witness :
    (∃ a : ℕ, (a : ℤ) < calculateMaxAttempts genAB.config.Alphabet.length
        genAB.config.Size genAB.config.UniquenessPressure ∧
      (['a'] : List Char) = generateCandidateID genAB.config.Alphabet
        genAB.config.Size.toNat (strBytes ([] : List (List Char)).flatten)
        ((fun _ _ => 0) a)) ∧
    (generateCandidateID ['a', 'b'] 2 [65] (fun _ => 0)).getD 0 ' ' =
      if 0 < ([65] : List ℕ).length then
        (['a', 'b'] : List Char).getD
          (((fun _ => 0) 0 + ([65] : List ℕ).getD (0 % ([65] : List ℕ).length) 0) %
            (['a', 'b'] : List Char).length) ' '
      else (['a', 'b'] : List Char).getD ((fun _ => 0) 0) ' ' :=
  ⟨(C2_seed_and_candidate (ε := ℕ)).1 genAB (fun _ => false) (fun _ _ => 0) [] ['a']
      { config := genAB.config, generated := [['a']], idCounter := 1 }
      (by decide) (by decide),
    (C2_seed_and_candidate (ε := ℕ)).2.1 ['a', 'b'] 2 [65] (fun _ => 0) 0
      Nat.zero_lt_two Nat.zero_lt_two Nat.zero_lt_two ' '⟩

/-- C3: Two successive successful `Generate` calls on the same instance
return distinct IDs unless the issued-ID set was reset (cleared, counter
zeroed) at the start of the second call because the counter had reached
`MaxUniqueIDs`.  Conjunct 1 captures the reset discipline: a successful call
transforms the state by applying the reset at most once, before the retry
loop (never per attempt): the final set is exactly the returned ID consed
onto the once-reset set, and the counter is the once-reset counter plus one.
Conjunct 2: distinctness of consecutive successful calls when the second
call does not reset. -/
theorem C3_sequential_distinct {ε : Type} :
    (∀ (g : ExtendedGenerator ε) (c : ℕ → Bool) (draws : ℕ → ℕ → ℕ)
        (id : List Char) (g' : ExtendedGenerator ε),
      Generate g c draws = (.ok id, g') →
      g'.config = g.config ∧
      g'.generated = id :: (applyReset g).generated ∧
      (applyReset g).generated.contains id = false ∧
      g'.idCounter = (applyReset g).idCounter + 1) ∧
    (∀ (g : ExtendedGenerator ε) (c1 c2 : ℕ → Bool) (draws1 draws2 : ℕ → ℕ → ℕ)
        (id1 id2 : List Char) (g1 g2 : ExtendedGenerator ε),
      Generate g c1 draws1 = (.ok id1, g1) →
      g1.idCounter < g1.config.MaxUniqueIDs →
      Generate g1 c2 draws2 = (.ok id2, g2) →
      id2 ≠ id1) := by
  have step : ∀ (g : ExtendedGenerator ε) (c : ℕ → Bool) (draws : ℕ → ℕ → ℕ)
      (id : List Char) (g' : ExtendedGenerator ε),
      Generate g c draws = (.ok id, g') →
      g'.config = g.config ∧
      g'.generated = id :: (applyReset g).generated ∧
      (applyReset g).generated.contains id = false ∧
      g'.idCounter = (applyReset g).idCounter + 1 := by
    intro g c draws id g' h
    obtain ⟨-, -, hcfg, parts, -, hloop⟩ := Generate_ok_inv g c draws id g' h
    obtain ⟨-, hmem, hgen, hctr⟩ :=
      generateLoop_ok _ _ _ _ _ _ _ _ _ _ _ _ _ hloop
    exact ⟨hcfg, hgen, hmem, hctr⟩
  refine ⟨step, ?_⟩
  intro g c1 c2 draws1 draws2 id1 id2 g1 g2 h1 hcap h2
  obtain ⟨-, hgen1, -, -⟩ := step g c1 draws1 id1 g1 h1
  obtain ⟨-, -, hmem2, -⟩ := step g1 c2 draws2 id2 g2 h2
  have hre : applyReset g1 = g1 := by
    unfold applyReset
    rw [if_neg (by omega)]
  rw [hre, hgen1] at hmem2
  intro hEq
  subst hEq
  simp at hmem2

unseal Rat.mul Rat.add Rat.inv Rat.sub in
theorem C3_sequential_distinct_witness : (['b'] : List Char) ≠ ['a'] :=
  (C3_sequential_distinct (ε := ℕ)).2 genAB (fun _ => false) (fun _ => false)
    (fun _ _ => 0) (fun _ _ => 1) ['a'] ['b']
    { config := genAB.config, generated := [['a']], idCounter := 1 }
    { config := genAB.config, generated := [['b'], ['a']], idCounter := 2 }
    (by decide) (by decide) (by decide)

/-- C4: `Generate` checks its preconditions eagerly, before any entropy
collection or random draw: an alphabet with fewer than 2 symbols yields
`ErrInvalidAlphabet`, and (with a well-formed alphabet) a non-positive size
yields `ErrInvalidSize`; in both cases the returned state is the unchanged
input state, and the result does not depend on the entropy providers or the
random oracle (both are universally quantified and never examined). -/
theorem C4_eager_validation {ε : Type} :
    (∀ (g : ExtendedGenerator ε) (c : ℕ → Bool) (draws : ℕ → ℕ → ℕ),
      g.config.Alphabet.length < 2 →
      Generate g c draws = (.error .invalidAlphabet, g)) ∧
    (∀ (g : ExtendedGenerator ε) (c : ℕ → Bool) (draws : ℕ → ℕ → ℕ),
      2 ≤ g.config.Alphabet.length → g.config.Size ≤ 0 →
      Generate g c draws = (.error .invalidSize, g)) := by
  constructor
  · intro g c draws h2
    unfold Generate
    rw [if_pos h2]
  · intro g c draws h2 hs
    unfold Generate
    rw [if_neg (by omega), if_pos hs]

/-- A generator with a one-symbol alphabet (invalid). -/
def genBad1 : ExtendedGenerator ℕ :=
  { config := { Alphabet := ['a'], Size := 1, Entropy := [],
                MaxGenerationTime := 0, UniquenessPressure := 1,
                MaxUniqueIDs := 10 },
    generated := [], idCounter := 0 }

/-- A generator with a non-positive size (invalid). -/
def genBad2 : ExtendedGenerator ℕ :=
  { config := { Alphabet := ['a', 'b'], Size := 0, Entropy := [],
                MaxGenerationTime := 0, UniquenessPressure := 1,
                MaxUniqueIDs := 10 },
    generated := [], idCounter := 0 }

theorem C4_eager_validation_witness :
    Generate genBad1 (fun _ => false) (fun _ _ => 0) =
      (.error .invalidAlphabet, genBad1) ∧
    Generate genBad2 (fun _ => false) (fun _ _ => 0) =
      (.error .invalidSize, genBad2) :=
  ⟨(C4_eager_validation (ε := ℕ)).1 _ _ _ (by decide),
    (C4_eager_validation (ε := ℕ)).2 _ _ _ (by decide) (by decide)⟩

/-- C5: The attempt bound equals
`min(floor(alphabet_size ^ size * uniqueness_pressure), 1000)` (conjunct 1,
for the non-negative pressures the knob is specified over), and when every
candidate of every attempt is already in the issued-ID set, the bound is
exhausted and `Generate` fails with the very `ErrGenerationTimeout` value
used for wall-clock expiry, the state being only the once-reset input state
(conjunct 2). -/
theorem C5_max_attempts_and_exhaustion {ε : Type} :
    (∀ (alphabetLen : ℕ) (size : ℤ) (p : ℚ), 0 ≤ p →
      calculateMaxAttempts alphabetLen size p =
        min ⌊(alphabetLen : ℚ) ^ size * p⌋ 1000) ∧
    (∀ (g : ExtendedGenerator ε) (c : ℕ → Bool) (draws : ℕ → ℕ → ℕ)
        (parts : List (List Char)),
      2 ≤ g.config.Alphabet.length → 0 < g.config.Size →
      (∀ t, c t = false) →
      collectEntropy c 0 g.config.Entropy = .ok parts →
      (∀ a, (applyReset g).generated.contains
          (generateCandidateID g.config.Alphabet g.config.Size.toNat
            (strBytes parts.flatten) (draws a)) = true) →
      Generate g c draws = (.error .generationTimeout, applyReset g)) := by
  constructor
  · intro n s p hp
    have hx : (0 : ℚ) ≤ (n : ℚ) ^ s * p :=
      mul_nonneg (zpow_nonneg (by positivity) _) hp
    have h1000 : ⌊(1000 : ℚ)⌋ = 1000 := by
      rw [show (1000 : ℚ) = ((1000 : ℤ) : ℚ) by norm_num, Int.floor_intCast]
    unfold calculateMaxAttempts goTrunc
    rw [if_pos (le_min hx (by norm_num))]
    rcases le_total ((n : ℚ) ^ s * p) 1000 with h | h
    · rw [min_eq_left h,
        min_eq_left (by rw [← h1000]; exact Int.floor_mono h)]
    · rw [min_eq_right h, h1000,
        min_eq_right (by rw [← h1000]; exact Int.floor_mono h)]
  · intro g c draws parts h2 hs hc hcol hdup
    rw [Generate_after_entropy g c draws parts (by omega) (by omega) hcol,
      generateLoop_exhaust _ _ _ _ _ _ _ hc hdup _ _ _]

/-- A generator whose only possible candidate (under the all-zero draws
oracle) is already in the issued-ID set. -/
def genDup : ExtendedGenerator ℕ :=
  { config := { Alphabet := ['a', 'b'], Size := 1, Entropy := [],
                MaxGenerationTime := 0, UniquenessPressure := 1,
                MaxUniqueIDs := 10 },
    generated := [['a']], idCounter := 1 }

unseal Rat.mul Rat.add Rat.inv Rat.sub in
theorem C5_max_attempts_and_exhaustion_witness :
    calculateMaxAttempts 2 1 1 = min ⌊(2 : ℚ) ^ (1 : ℤ) * 1⌋ 1000 ∧
    Generate genDup (fun _ => false) (fun _ _ => 0) =
      (.error .generationTimeout, applyReset genDup) :=
  ⟨(C5_max_attempts_and_exhaustion (ε := ℕ)).1 2 1 1 zero_le_one,
    (C5_max_attempts_and_exhaustion (ε := ℕ)).2 genDup (fun _ => false)
      (fun _ _ => 0) [] (by decide) (by decide) (fun _ => rfl) rfl
      (fun _ => rfl)⟩

/-- C10: Whenever `alphabet_size ^ size * uniqueness_pressure < 1` the
attempt bound truncates to zero, so even with a valid configuration, a live
(never-done) context and successfully collected entropy, `Generate` skips
the retry loop entirely and returns `ErrGenerationTimeout`: the state is
only the once-reset input state, no ID is issued, and the outcome is
independent of the random oracle. -/
theorem C10_zero_attempt_bound {ε : Type} (g : ExtendedGenerator ε)
    (c : ℕ → Bool) (draws draws' : ℕ → ℕ → ℕ) (parts : List (List Char))
    (h2 : 2 ≤ g.config.Alphabet.length) (hs : 0 < g.config.Size)
    (hcol : collectEntropy c 0 g.config.Entropy = .ok parts)
    (hsmall : (g.config.Alphabet.length : ℚ) ^ g.config.Size *
        g.config.UniquenessPressure < 1) :
    Generate g c draws = (.error .generationTimeout, applyReset g) ∧
    Generate g c draws = Generate g c draws' := by
  have hM : (calculateMaxAttempts g.config.Alphabet.length g.config.Size
      g.config.UniquenessPressure).toNat = 0 := by
    unfold calculateMaxAttempts goTrunc
    have hmin : min ((g.config.Alphabet.length : ℚ) ^ g.config.Size *
        g.config.UniquenessPressure) 1000 =
        (g.config.Alphabet.length : ℚ) ^ g.config.Size *
          g.config.UniquenessPressure :=
      min_eq_left (le_trans hsmall.le (by norm_num))
    rw [hmin]
    split
    · have h1 : ⌊(g.config.Alphabet.length : ℚ) ^ g.config.Size *
          g.config.UniquenessPressure⌋ < 1 := by
        rw [Int.floor_lt]
        exact_mod_cast hsmall
      omega
    · have h1 : ⌈(g.config.Alphabet.length : ℚ) ^ g.config.Size *
          g.config.UniquenessPressure⌉ ≤ 0 :=
        Int.ceil_le.mpr (by push_cast; linarith)
      omega
  have key : ∀ dr : ℕ → ℕ → ℕ,
      Generate g c dr = (.error .generationTimeout, applyReset g) := by
    intro dr
    rw [Generate_after_entropy g c dr parts (by omega) (by omega) hcol, hM,
      generateLoop]
  exact ⟨key draws, by rw [key draws, key draws']⟩

/-- A generator whose tiny uniqueness pressure makes the attempt bound
truncate to zero. -/
def genTiny : ExtendedGenerator ℕ :=
  { config := { Alphabet := ['a', 'b'], Size := 1, Entropy := [],
                MaxGenerationTime := 0, UniquenessPressure := 1 / 4,
                MaxUniqueIDs := 10 },
    generated := [], idCounter := 0 }

unseal Rat.mul Rat.add Rat.inv Rat.sub in
theorem C10_zero_attempt_bound_witness :
    Generate genTiny (fun _ => false) (fun _ _ => 0) =
      (.error .generationTimeout, applyReset genTiny) ∧
    Generate genTiny (fun _ => false) (fun _ _ => 0) =
      Generate genTiny (fun _ => false) (fun _ _ => 1) :=
  C10_zero_attempt_bound genTiny (fun _ => false) (fun _ _ => 0) (fun _ _ => 1)
    [] (by decide) (by decide) rfl (by decide)

/-- C6: If any entropy provider fails during collection, `Generate` aborts
the whole call and returns that provider's error value verbatim (payload `e`
unchanged, injected as `providerErr e`, not converted to any other error
kind), with no ID produced and the generator state returned unchanged.
`pre` are the providers before the failing one (all of which succeeded), and
the context is live through the checks preceding them. -/
theorem C6_provider_error_verbatim {ε : Type} (g : ExtendedGenerator ε)
    (c : ℕ → Bool) (draws : ℕ → ℕ → ℕ) (pre post : List (Except ε (List Char)))
    (e : ε) (h2 : 2 ≤ g.config.Alphabet.length) (hs : 0 < g.config.Size)
    (hE : g.config.Entropy = pre ++ .error e :: post)
    (hok : ∀ p ∈ pre, p.isOk = true)
    (hc : ∀ u, u ≤ pre.length → c u = false) :
    Generate g c draws = (.error (.providerErr e), g) := by
  unfold Generate
  rw [if_neg (by omega), if_neg (by omega), hE,
    collectEntropy_providerErr c e post pre 0 hok
      (fun u hu => by simpa using hc u hu)]

/-- A generator whose second entropy provider fails with error value `7`. -/
def genErr : ExtendedGenerator ℕ :=
  { config := { Alphabet := ['a', 'b'], Size := 1,
                Entropy := [.ok ['x'], .error 7, .ok ['y']],
                MaxGenerationTime := 0, UniquenessPressure := 1,
                MaxUniqueIDs := 10 },
    generated := [], idCounter := 0 }

theorem C6_provider_error_verbatim_witness :
    Generate genErr (fun _ => false) (fun _ _ => 0) =
      (.error (.providerErr 7), genErr) :=
  C6_provider_error_verbatim genErr (fun _ => false) (fun _ _ => 0)
    [.ok ['x']] [.ok ['y']] 7 (by decide) (by decide) rfl
    (by intro p hp
        rw [List.mem_singleton] at hp
        subst hp
        rfl)
    (fun _ _ => rfl)

/-- C7: Calling `Generate` with an already-expired or already-cancelled
context (every `Done` observation is `true`) on a valid configuration
returns `ErrGenerationTimeout` without consulting the random oracle: the
cancellation is observed at the context check before the first entropy
provider, or — when there are no providers — at the first periodic check of
the retry loop (or at the loop's zero-fuel exit).  Conjunct 2 makes the
"no draw happens" reading precise: the whole result is independent of the
oracle. -/
theorem C7_cancelled_context {ε : Type} (g : ExtendedGenerator ε)
    (c : ℕ → Bool) (draws draws' : ℕ → ℕ → ℕ) (hc : ∀ t, c t = true)
    (h2 : 2 ≤ g.config.Alphabet.length) (hs : 0 < g.config.Size) :
    (Generate g c draws).1 = .error .generationTimeout ∧
    Generate g c draws = Generate g c draws' := by
  cases hE : g.config.Entropy with
  | nil =>
    have key : ∀ dr : ℕ → ℕ → ℕ,
        Generate g c dr = (.error .generationTimeout, applyReset g) := by
      intro dr
      have hcol : collectEntropy c 0 g.config.Entropy = .ok [] := by
        rw [hE]; rfl
      rw [Generate_after_entropy g c dr [] (by omega) (by omega) hcol]
      cases hM : (calculateMaxAttempts g.config.Alphabet.length g.config.Size
          g.config.UniquenessPressure).toNat with
      | zero => rw [generateLoop]
      | succ n => rw [generateLoop, hc, Bool.and_true, if_pos (by decide)]
    exact ⟨by rw [key draws], by rw [key draws, key draws']⟩
  | cons p ps =>
    have key : ∀ dr : ℕ → ℕ → ℕ,
        Generate g c dr = (.error .generationTimeout, g) := by
      intro dr
      unfold Generate
      rw [if_neg (by omega), if_neg (by omega), hE]
      simp [collectEntropy, hc]
    exact ⟨by rw [key draws], by rw [key draws, key draws']⟩

theorem C7_cancelled_context_witness :
    (Generate genAB (fun _ => true) (fun _ _ => 0)).1 =
      .error .generationTimeout ∧
    Generate genAB (fun _ => true) (fun _ _ => 0) =
      Generate genAB (fun _ => true) (fun _ _ => 1) :=
  C7_cancelled_context genAB (fun _ => true) (fun _ _ => 0) (fun _ _ => 1)
    (fun _ => rfl) (by decide) (by decide)

/-- `GetUniquenessProbability` of `extended_generator.go`, with the
`float64` arithmetic modelled over `ℝ` (`math.Pow` is real exponentiation,
`math.Exp` is `Real.exp`): `1 - (1 - exp(-(n*(n-1)) / (2 * len^Size)))`. -/
noncomputable def GetUniquenessProbability {ε : Type} (g : ExtendedGenerator ε)
    (numIDs : ℤ) : ℝ :=
  let alphabetSize := g.config.Alphabet.length
  let possibleCombinations : ℝ := (alphabetSize : ℝ) ^ ((g.config.Size : ℤ) : ℝ)
  let probabilityOfCollision :=
    1 - Real.exp (-((numIDs * (numIDs - 1) : ℤ) : ℝ) / (2 * possibleCombinations))
  1 - probabilityOfCollision

theorem int_mul_pred_nonneg {n : ℤ} (hn : 0 ≤ n) : 0 ≤ n * (n - 1) := by
  rcases eq_or_lt_of_le hn with rfl | h
  · simp
  · exact mul_nonneg (by omega) (by omega)

theorem int_mul_pred_mono {n m : ℤ} (hn : 0 ≤ n) (hnm : n ≤ m) :
    n * (n - 1) ≤ m * (m - 1) := by
  rcases eq_or_lt_of_le hnm with rfl | h
  · exact le_refl _
  · nlinarith [mul_nonneg (by omega : (0 : ℤ) ≤ m - n)
      (by omega : (0 : ℤ) ≤ m + n - 1)]

/-- C8: `GetUniquenessProbability(n)` is a pure function of the
configuration and `n` computing `exp(-n(n-1) / (2 * alphabet_size^Size))`
(conjunct 1); it returns 1 at `n = 0` and `n = 1` (conjuncts 2-3), is
monotonically non-increasing in `n` (conjunct 4), and stays within `[0,1]`
for all non-negative `n` (conjunct 5; in the real-valued model there is no
NaN, which corresponds to the Go computation never producing one while
`n*(n-1)` stays within `int` range, as it does for all `n ≤ 10^6`). -/
theorem C8_uniqueness_probability {ε : Type} (g : ExtendedGenerator ε)
    (hA : 0 < g.config.Alphabet.length) :
    (∀ n : ℤ, GetUniquenessProbability g n =
      Real.exp (-((n * (n - 1) : ℤ) : ℝ) /
        (2 * (g.config.Alphabet.length : ℝ) ^ ((g.config.Size : ℤ) : ℝ)))) ∧
    GetUniquenessProbability g 0 = 1 ∧
    GetUniquenessProbability g 1 = 1 ∧
    (∀ n m : ℤ, 0 ≤ n → n ≤ m →
      GetUniquenessProbability g m ≤ GetUniquenessProbability g n) ∧
    (∀ n : ℤ, 0 ≤ n →
      0 ≤ GetUniquenessProbability g n ∧ GetUniquenessProbability g n ≤ 1) := by
  have hS : (0 : ℝ) <
      (g.config.Alphabet.length : ℝ) ^ ((g.config.Size : ℤ) : ℝ) :=
    Real.rpow_pos_of_pos (by exact_mod_cast hA) _
  have heq : ∀ n : ℤ, GetUniquenessProbability g n =
      Real.exp (-((n * (n - 1) : ℤ) : ℝ) /
        (2 * (g.config.Alphabet.length : ℝ) ^ ((g.config.Size : ℤ) : ℝ))) := by
    intro n
    unfold GetUniquenessProbability
    ring
  refine ⟨heq, ?_, ?_, ?_, ?_⟩
  · rw [heq]
    norm_num
  · rw [heq]
    norm_num
  · intro n m hn hnm
    rw [heq, heq]
    rw [Real.exp_le_exp]
    rw [neg_div, neg_div, neg_le_neg_iff]
    rw [div_le_div_iff_of_pos_right (by positivity)]
    exact_mod_cast int_mul_pred_mono hn hnm
  · intro n hn
    rw [heq]
    refine ⟨(Real.exp_pos _).le, Real.exp_le_one_iff.mpr ?_⟩
    rw [neg_div, neg_nonpos]
    apply div_nonneg _ (by positivity)
    exact_mod_cast int_mul_pred_nonneg hn

theorem C8_uniqueness_probability_witness :
    GetUniquenessProbability genAB 1 = 1 ∧
    (0 ≤ GetUniquenessProbability genAB 5 ∧
      GetUniquenessProbability genAB 5 ≤ 1) :=
  ⟨(C8_uniqueness_probability genAB (by decide)).2.2.1,
    (C8_uniqueness_probability genAB (by decide)).2.2.2.2 5 (by decide)⟩

/-! ### Validator (`pkg/idforge/validator.go`) -/

/-- `CharacterSetRequirement` of `validator.go`. -/
structure CharacterSetRequirement where
  CharSet : List Char
  MinCount : ℤ
  Description : String
deriving DecidableEq

/-- `IDValidator` of `validator.go`.  A compiled forbidden regex is modelled
semantically, as the Boolean matcher it denotes on strings. -/
structure IDValidator where
  minLength : ℤ
  maxLength : ℤ
  requiredCharSet : List CharacterSetRequirement
  forbiddenPatterns : List (List Char → Bool)

/-- Structured counterpart of the `error` values `Validate` returns:
`ErrIDTooShort`/`ErrIDTooLong` wrapped with the bound, the forbidden-pattern
failure naming (the index of) the matched pattern, and `ErrWeakID` wrapped
with the joined list of unmet requirement descriptions. -/
inductive ValidationError where
  | tooShort (minLength : ℤ)
  | tooLong (maxLength : ℤ)
  | forbiddenPattern (index : ℕ)
  | weakID (missing : List String)
deriving DecidableEq

/-- The `for _, pattern := range v.forbiddenPatterns` loop of `Validate`:
the index of the first matching pattern, scanning from index `i`. -/
def findMatchIdx (id : List Char) : List (List Char → Bool) → ℕ → Option ℕ
  | [], _ => none
  | p :: ps, i => if p id then some i else findMatchIdx id ps (i + 1)

/-- The per-requirement count of `Validate`: the sum, over the characters of
`req.CharSet`, of that character's number of occurrences in the ID
(Go's `charCounts` map summed over the requirement's character set). -/
def charSetCount (id cs : List Char) : ℕ :=
  (cs.map fun ch => id.count ch).sum

/-- The `missingRequirements` list of `Validate`: descriptions of the unmet
character-class requirements, in declaration order. -/
def missingRequirements (v : IDValidator) (id : List Char) : List String :=
  (v.requiredCharSet.filter fun req =>
    (charSetCount id req.CharSet : ℤ) < req.MinCount).map
    fun req => req.Description

/-- `Validate` of `validator.go`: length bounds first (each returning
immediately), then the forbidden patterns (returning on the first match),
then the character-class requirements (aggregated into one composite
`ErrWeakID` failure). -/
def Validate (v : IDValidator) (id : List Char) : Except ValidationError Unit :=
  if (id.length : ℤ) < v.minLength then .error (.tooShort v.minLength)
  else if (id.length : ℤ) > v.maxLength then .error (.tooLong v.maxLength)
  else
    match findMatchIdx id v.forbiddenPatterns 0 with
    | some i => .error (.forbiddenPattern i)
    | none =>
      let missing := missingRequirements v id
      if missing.length > 0 then .error (.weakID missing) else .ok ()

/-- `startsWithSeq pat s`: `s` begins with `pat`. -/
def startsWithSeq : List Char → List Char → Bool
  | [], _ => true
  | _ :: _, [] => false
  | p :: ps, c :: cs => p == c && startsWithSeq ps cs

/-- `containsSeq pat s`: `pat` occurs contiguously somewhere in `s`. -/
def containsSeq (pat : List Char) : List Char → Bool
  | [] => pat.isEmpty
  | c :: cs => startsWithSeq pat (c :: cs) || containsSeq pat cs

/-- The matcher denoted by the compiled regex `(?i)password`:
case-insensitive containment of `"password"`. -/
def patPasswordCI (s : List Char) : Bool :=
  containsSeq "password".toList (s.map Char.toLower)

/-- The matcher denoted by `^0+$`: a nonempty string of `'0'`s. -/
def patAllZeros (s : List Char) : Bool :=
  !s.isEmpty && s.all fun ch => ch == '0'

/-- The matcher denoted by `^9+$`: a nonempty string of `'9'`s. -/
def patAllNines (s : List Char) : Bool :=
  !s.isEmpty && s.all fun ch => ch == '9'

/-- Four consecutive digits start at the head of the list. -/
def startsWithFourDigits (l : List Char) : Bool :=
  ((l.take 4).length == 4) && (l.take 4).all Char.isDigit

/-- The matcher denoted by the regex `\d{4}` that
`TestAddForbiddenPattern` registers: four consecutive digits occur
somewhere in the string. -/
def patFourDigits : List Char → Bool
  | [] => false
  | c :: cs => startsWithFourDigits (c :: cs) || patFourDigits cs

/-- The default validator built by `NewIDValidator` with no options:
length bounds 8..128, one digit / one uppercase / one lowercase required,
and the three default forbidden patterns. -/
def defaultValidator : IDValidator :=
  { minLength := 8
    maxLength := 128
    requiredCharSet :=
      [ { CharSet := "0123456789".toList, MinCount := 1,
          Description := "at least one digit" },
        { CharSet := "ABCDEFGHIJKLMNOPQRSTUVWXYZ".toList, MinCount := 1,
          Description := "at least one uppercase letter" },
        { CharSet := "abcdefghijklmnopqrstuvwxyz".toList, MinCount := 1,
          Description := "at least one lowercase letter" } ]
    forbiddenPatterns := [patPasswordCI, patAllZeros, patAllNines] }

/-- `NewIDValidator()` with `AddForbiddenPattern` for four consecutive
digits applied (the matcher is appended after the defaults). -/
def fourDigitValidator : IDValidator :=
  { defaultValidator with
    forbiddenPatterns := defaultValidator.forbiddenPatterns ++ [patFourDigits] }

theorem findMatchIdx_eq_none_iff (id : List Char) :
    ∀ (ps : List (List Char → Bool)) (i : ℕ),
    findMatchIdx id ps i = none ↔ ∀ p ∈ ps, p id = false := by
  intro ps
  induction ps with
  | nil => intro i; simp [findMatchIdx]
  | cons p ps ih =>
    intro i
    by_cases h : p id = true
    · simp [findMatchIdx, h]
    · have hb : p id = false := by
        cases hpid : p id
        · rfl
        · exact absurd hpid h
      rw [findMatchIdx, hb, if_neg Bool.false_ne_true]
      simp [ih (i + 1), hb]

theorem missingRequirements_eq_nil_iff (v : IDValidator) (id : List Char) :
    missingRequirements v id = [] ↔
      ∀ req ∈ v.requiredCharSet,
        req.MinCount ≤ (charSetCount id req.CharSet : ℤ) := by
  unfold missingRequirements
  rw [List.map_eq_nil_iff, List.filter_eq_nil_iff]
  constructor
  · intro h req hreq
    have := h req hreq
    simp only [decide_eq_true_eq] at this
    omega
  · intro h req hreq
    simp only [decide_eq_true_eq]
    have := h req hreq
    omega

/-- C9 counterexample: the failure returned by `Validate` does not in
general describe every unmet requirement.  The ID `"ab"` violates the
minimum-length bound and also misses two character-class requirements
(conjunct 2 lists them), yet `Validate` (default validator) returns only
the `ErrIDTooShort` failure, which names no character-class requirement. -/
theorem C9_validate_counterexample :
    Validate defaultValidator "ab".toList = .error (.tooShort 8) ∧
    missingRequirements defaultValidator "ab".toList =
      ["at least one digit", "at least one uppercase letter"] := by
  constructor
  · decide
  · decide

/-- C9 (amended): `Validate` returns success exactly when the ID meets the
length bounds, matches no forbidden pattern, and satisfies every
character-class minimum count (conjunct 1).  On failure it returns the
first failing check in order — a length error, else the first matching
forbidden pattern — and only when length and patterns pass does it return a
composite error describing every unmet character-class requirement
(conjunct 2).  In particular, with a validator configured to forbid four
consecutive digits, validating `"abcABC1234"` fails (naming the
forbidden-pattern condition) and validating `"abcABC123"` succeeds
(conjuncts 3-4). -/
theorem C9_validate_amended :
    (∀ (v : IDValidator) (id : List Char),
      Validate v id = .ok () ↔
        (v.minLength ≤ (id.length : ℤ) ∧ (id.length : ℤ) ≤ v.maxLength ∧
          (∀ p ∈ v.forbiddenPatterns, p id = false) ∧
          ∀ req ∈ v.requiredCharSet,
            req.MinCount ≤ (charSetCount id req.CharSet : ℤ))) ∧
    (∀ (v : IDValidator) (id : List Char),
      v.minLength ≤ (id.length : ℤ) → (id.length : ℤ) ≤ v.maxLength →
      (∀ p ∈ v.forbiddenPatterns, p id = false) →
      missingRequirements v id ≠ [] →
      Validate v id = .error (.weakID (missingRequirements v id))) ∧
    Validate fourDigitValidator "abcABC1234".toList =
      .error (.forbiddenPattern 3) ∧
    Validate fourDigitValidator "abcABC123".toList = .ok () := by
  refine ⟨?_, ?_, by decide, by decide⟩
  · intro v id
    unfold Validate
    by_cases h1 : (id.length : ℤ) < v.minLength
    · rw [if_pos h1]
      constructor
      · intro h; simp at h
      · rintro ⟨hmin, -⟩; exact absurd h1 (not_lt.mpr hmin)
    by_cases h2 : (id.length : ℤ) > v.maxLength
    · rw [if_neg h1, if_pos h2]
      constructor
      · intro h; simp at h
      · rintro ⟨-, hmax, -⟩; exact absurd h2 (not_lt.mpr hmax)
    rw [if_neg h1, if_neg h2]
    cases hm : findMatchIdx id v.forbiddenPatterns 0 with
    | some i =>
      constructor
      · intro h; simp at h
      · rintro ⟨-, -, hpat, -⟩
        rw [(findMatchIdx_eq_none_iff id v.forbiddenPatterns 0).mpr hpat] at hm
        cases hm
    | none =>
      by_cases hmiss : (missingRequirements v id).length > 0
      · rw [if_pos hmiss]
        constructor
        · intro h; simp at h
        · rintro ⟨-, -, -, hreq⟩
          rw [(missingRequirements_eq_nil_iff v id).mpr hreq] at hmiss
          simp at hmiss
      · rw [if_neg hmiss]
        have hnil : missingRequirements v id = [] := by
          cases hval : missingRequirements v id with
          | nil => rfl
          | cons a l => rw [hval] at hmiss; simp at hmiss
        constructor
        · intro _
          exact ⟨by omega, by omega,
            (findMatchIdx_eq_none_iff id _ 0).mp hm,
            (missingRequirements_eq_nil_iff v id).mp hnil⟩
        · intro _; rfl
  · intro v id hmin hmax hpat hne
    unfold Validate
    rw [if_neg (not_lt.mpr hmin), if_neg (not_lt.mpr hmax),
      (findMatchIdx_eq_none_iff id v.forbiddenPatterns 0).mpr hpat,
      if_pos (by simpa [List.length_pos] using hne)]

/-- None of the three default forbidden patterns matches `"abcdefgh"`. -/
theorem defaultPatterns_false_on_abcdefgh :
    ∀ p ∈ defaultValidator.forbiddenPatterns, p "abcdefgh".toList = false := by
  intro p hp
  simp only [defaultValidator, List.mem_cons, List.not_mem_nil, or_false] at hp
  rcases hp with rfl | rfl | rfl <;> decide

/-- `"abcdefgh"` misses the digit and uppercase requirements. -/
theorem abcdefgh_missing_ne_nil :
    missingRequirements defaultValidator "abcdefgh".toList ≠ [] := by
  decide

theorem C9_validate_amended_witness :
    Validate defaultValidator "abcdefgh".toList =
      .error (.weakID (missingRequirements defaultValidator "abcdefgh".toList)) :=
  C9_validate_amended.2.1 defaultValidator "abcdefgh".toList (by decide)
    (by decide) defaultPatterns_false_on_abcdefgh abcdefgh_missing_ne_nil
